import Mathlib

/-!
Shallow embedding of the EPP screening-model usage repository.

The repository ships only caller-side example scripts
(`src/examples/01_basic_goal_seek.py` … `04_full_model_run.py`); the
calculation engine and goal-seek solver live in the external package
`epp_screening_model_v3`.  Definitions below that embed the missing engine
and solver are therefore modelled from the specification (`spec.md`); the
definitions for the example scripts themselves (ACCU volume literals,
print guards) are transcribed from the Python sources.

All numerics use ℚ, so every definition is executable and decidable.
-/

namespace EPP

/-! ### Goal-seek solver (modelled from the spec, §4.3) -/

/-- Result record of one solver run (spec §3, `GoalSeekResult`):
convergence flag, iteration and function-call counters, the solved input,
the target and the achieved target-cell value. -/
structure GoalSeekResult where
  converged : Bool
  iterations : ℕ
  functionCalls : ℕ
  solution : ℚ
  targetValue : ℚ
  achievedValue : ℚ
  deriving Repr, DecidableEq

/-- Errors of the solver input validation (spec §4.3 / §7):
`invalidBounds` for `min ≥ max`, `noBracket` when `f(min)` and `f(max)`
lie on the same side of the target. -/
inductive SolveError where
  | invalidBounds
  | noBracket
  deriving Repr, DecidableEq

/-- State returned by the bisection loop: the final bracket, the number of
halving iterations performed, the list of midpoints where the objective was
evaluated, and whether the width tolerance was met. -/
structure LoopOut where
  lo : ℚ
  hi : ℚ
  iters : ℕ
  calls : List ℚ
  converged : Bool
  deriving Repr, DecidableEq

/-- Modelled from the spec: the bisection iteration of
`GoalSeekSolver.solve` (spec §4.3, "bisection halves the bracket each
step"), absent from this repository.  Each step evaluates the objective at
the bracket midpoint and keeps the half on which `f - target` changes
sign; the loop stops once the bracket width is within the tolerance or
the fuel (`maxIterations`) is exhausted. -/
def bisectLoop (f : ℚ → ℚ) (target tol : ℚ) : ℕ → ℚ → ℚ → LoopOut
  | 0, lo, hi => ⟨lo, hi, 0, [], decide (hi - lo ≤ tol)⟩
  | n + 1, lo, hi =>
    if hi - lo ≤ tol then ⟨lo, hi, 0, [], true⟩
    else
      let mid := (lo + hi) / 2
      let r :=
        if (f lo - target) * (f mid - target) ≤ 0 then
          bisectLoop f target tol n lo mid
        else
          bisectLoop f target tol n mid hi
      ⟨r.lo, r.hi, r.iters + 1, mid :: r.calls, r.converged⟩

/-- Outcome of a `solve` call: the result or a typed error, together with
the trace of points at which the objective function was evaluated (each
entry is one "function call" of spec §4.3). -/
structure SolveOutcome where
  result : Except SolveError GoalSeekResult
  calls : List ℚ

/-- Modelled from the spec: `GoalSeekSolver.solve` with `method=bisection`
(spec §4.3), absent from this repository.  Validates the bounds ordering
before any function evaluation, evaluates `f` at both boundaries to check
the bracketing condition, then runs the bisection loop; the solution is
the midpoint of the final bracket and the achieved value is the objective
there.  Non-convergence is reported through the `converged` flag, never
through an error. -/
def solve (f : ℚ → ℚ) (target tol lo hi : ℚ) (maxIter : ℕ) : SolveOutcome :=
  if hi ≤ lo then ⟨.error .invalidBounds, []⟩
  else if 0 < (f lo - target) * (f hi - target) then ⟨.error .noBracket, [lo, hi]⟩
  else
    let r := bisectLoop f target tol maxIter lo hi
    let sol := (r.lo + r.hi) / 2
    ⟨.ok ⟨r.converged, r.iters, r.calls.length + 3, sol, target, f sol⟩,
      lo :: hi :: (r.calls ++ [sol])⟩

/-- The successful result of a solve outcome, if any. -/
def solveResult? (o : SolveOutcome) : Option GoalSeekResult :=
  o.result.toOption

/-- The error of a solve outcome, if any. -/
def solveError? (o : SolveOutcome) : Option SolveError :=
  match o.result with
  | .error e => some e
  | .ok _ => none

/-- Ceiling of the base-2 logarithm of a rational `q`, as a natural
number (`0` for `q ≤ 1`): the least `n` with `q ≤ 2 ^ n`. -/
def ceilLog2 (q : ℚ) : ℕ := Nat.clog 2 ⌈q⌉₊

lemma le_two_pow_ceilLog2 (q : ℚ) : q ≤ 2 ^ ceilLog2 q := by
  calc q ≤ (⌈q⌉₊ : ℚ) := Nat.le_ceil q
    _ ≤ ((2 ^ Nat.clog 2 ⌈q⌉₊ : ℕ) : ℚ) := by
        exact_mod_cast Nat.le_pow_clog one_lt_two _
    _ = 2 ^ ceilLog2 q := by push_cast [ceilLog2]; ring

/-- If the initial width fits under `tol * 2 ^ n` and the fuel is at least
`n`, the bisection loop converges using at most `n` iterations. -/
lemma bisectLoop_converges (f : ℚ → ℚ) (target tol : ℚ) :
    ∀ (n m : ℕ) (lo hi : ℚ), n ≤ m → hi - lo ≤ tol * 2 ^ n →
      (bisectLoop f target tol m lo hi).converged = true ∧
      (bisectLoop f target tol m lo hi).iters ≤ n := by
  intro n
  induction n with
  | zero =>
    intro m lo hi _ hw
    have hw' : hi - lo ≤ tol := by simpa using hw
    cases m with
    | zero => simp [bisectLoop, hw']
    | succ m => simp [bisectLoop, hw']
  | succ n ih =>
    intro m lo hi hnm hw
    cases m with
    | zero => omega
    | succ m =>
      by_cases hstop : hi - lo ≤ tol
      · simp [bisectLoop, hstop]
      · have hm : n ≤ m := Nat.succ_le_succ_iff.mp hnm
        simp only [bisectLoop, if_neg hstop]
        by_cases hside : (f lo - target) * (f ((lo + hi) / 2) - target) ≤ 0
        · have hw2 : (lo + hi) / 2 - lo ≤ tol * 2 ^ n := by
            have : hi - lo ≤ tol * 2 ^ (n + 1) := hw
            rw [pow_succ] at this; linarith
          have := ih m lo ((lo + hi) / 2) hm hw2
          simp [hside, this.1, Nat.succ_le_succ this.2]
        · have hw2 : hi - (lo + hi) / 2 ≤ tol * 2 ^ n := by
            have : hi - lo ≤ tol * 2 ^ (n + 1) := hw
            rw [pow_succ] at this; linarith
          have := ih m ((lo + hi) / 2) hi hm hw2
          simp [hside, this.1, Nat.succ_le_succ this.2]

/-- The final bracket width is the initial width divided by `2 ^ iters`:
each performed iteration exactly halves the bracket. -/
lemma bisectLoop_width (f : ℚ → ℚ) (target tol : ℚ) :
    ∀ (m : ℕ) (lo hi : ℚ),
      (bisectLoop f target tol m lo hi).hi - (bisectLoop f target tol m lo hi).lo
        = (hi - lo) / 2 ^ (bisectLoop f target tol m lo hi).iters := by
  intro m
  induction m with
  | zero => intro lo hi; simp [bisectLoop]
  | succ m ih =>
    intro lo hi
    by_cases hstop : hi - lo ≤ tol
    · simp [bisectLoop, hstop]
    · simp only [bisectLoop, if_neg hstop]
      by_cases hside : (f lo - target) * (f ((lo + hi) / 2) - target) ≤ 0
      · simp only [if_pos hside]
        rw [ih lo ((lo + hi) / 2)]
        rw [pow_succ]; ring
      · simp only [if_neg hside]
        rw [ih ((lo + hi) / 2) hi]
        rw [pow_succ]; ring

/-- The loop's convergence flag is exactly the check that the final
bracket width is within the tolerance. -/
lemma bisectLoop_converged_iff (f : ℚ → ℚ) (target tol : ℚ) :
    ∀ (m : ℕ) (lo hi : ℚ),
      (bisectLoop f target tol m lo hi).converged = true ↔
        (bisectLoop f target tol m lo hi).hi - (bisectLoop f target tol m lo hi).lo ≤ tol := by
  intro m
  induction m with
  | zero => intro lo hi; simp [bisectLoop]
  | succ m ih =>
    intro lo hi
    by_cases hstop : hi - lo ≤ tol
    · simp [bisectLoop, hstop]
    · simp only [bisectLoop, if_neg hstop]
      by_cases hside : (f lo - target) * (f ((lo + hi) / 2) - target) ≤ 0
      · simpa [hside] using ih lo ((lo + hi) / 2)
      · simpa [hside] using ih ((lo + hi) / 2) hi

/-- If the initial boundary values bracket the target, so do the boundary
values of every later bracket: the sign-change condition is preserved by
each halving step. -/
lemma bisectLoop_bracket (f : ℚ → ℚ) (target tol : ℚ) :
    ∀ (m : ℕ) (lo hi : ℚ), (f lo - target) * (f hi - target) ≤ 0 →
      (f (bisectLoop f target tol m lo hi).lo - target)
        * (f (bisectLoop f target tol m lo hi).hi - target) ≤ 0 := by
  intro m
  induction m with
  | zero => intro lo hi h; simpa [bisectLoop] using h
  | succ m ih =>
    intro lo hi h
    by_cases hstop : hi - lo ≤ tol
    · simpa [bisectLoop, hstop] using h
    · simp only [bisectLoop, if_neg hstop]
      by_cases hside : (f lo - target) * (f ((lo + hi) / 2) - target) ≤ 0
      · simpa [hside] using ih lo ((lo + hi) / 2) hside
      · have hpos : 0 < (f lo - target) * (f ((lo + hi) / 2) - target) := lt_of_not_le hside
        have ha : f lo - target ≠ 0 := by
          intro h0
          rw [h0, zero_mul] at hpos
          exact lt_irrefl 0 hpos
        have hmid : (f ((lo + hi) / 2) - target) * (f hi - target) ≤ 0 := by
          rcases lt_or_gt_of_ne ha with haneg | hapos
          · have hb : f ((lo + hi) / 2) - target < 0 := by nlinarith
            have hc : 0 ≤ f hi - target := by nlinarith
            exact mul_nonpos_iff.mpr (Or.inr ⟨hb.le, hc⟩)
          · have hb : 0 < f ((lo + hi) / 2) - target := by nlinarith
            have hc : f hi - target ≤ 0 := by nlinarith
            exact mul_nonpos_iff.mpr (Or.inl ⟨hb.le, hc⟩)
        simpa [hside] using ih ((lo + hi) / 2) hi hmid

/-- On valid bracketing inputs, `solve` returns the record read off the
bisection loop: the flag, the counters, the final-bracket midpoint as
solution and the objective there as achieved value. -/
lemma solve_ok_eq (f : ℚ → ℚ) (target tol lo hi : ℚ) (maxIter : ℕ)
    (hline : ¬ hi ≤ lo) (hnb : ¬ 0 < (f lo - target) * (f hi - target)) :
    solve f target tol lo hi maxIter =
      ⟨.ok ⟨(bisectLoop f target tol maxIter lo hi).converged,
            (bisectLoop f target tol maxIter lo hi).iters,
            (bisectLoop f target tol maxIter lo hi).calls.length + 3,
            ((bisectLoop f target tol maxIter lo hi).lo
              + (bisectLoop f target tol maxIter lo hi).hi) / 2,
            target,
            f (((bisectLoop f target tol maxIter lo hi).lo
              + (bisectLoop f target tol maxIter lo hi).hi) / 2)⟩,
        lo :: hi :: ((bisectLoop f target tol maxIter lo hi).calls
          ++ [((bisectLoop f target tol maxIter lo hi).lo
            + (bisectLoop f target tol maxIter lo hi).hi) / 2])⟩ := by
  simp [solve, if_neg hline, if_neg hnb]

/-- Convergence flag of a solve outcome (`false` when the call failed). -/
def solveConverged (o : SolveOutcome) : Bool :=
  match solveResult? o with
  | some r => r.converged
  | none => false

/-- Solution of a solve outcome (`0` when the call failed). -/
def solveSolution (o : SolveOutcome) : ℚ :=
  match solveResult? o with
  | some r => r.solution
  | none => 0

/-- Achieved target-cell value of a solve outcome (`0` when the call failed). -/
def solveAchieved (o : SolveOutcome) : ℚ :=
  match solveResult? o with
  | some r => r.achievedValue
  | none => 0

/-- C1: for every bisection solve call with `lo < hi` and boundary values
bracketing the target, the solver halves the bracket on each step (final
width is the initial width over `2 ^ iterations`) and returns a result
with `converged = true` after at most `⌈log₂((hi - lo)/tol)⌉` iterations. -/
theorem bisection_bracket_convergence (f : ℚ → ℚ) (target tol lo hi : ℚ) (maxIter : ℕ)
    (hlt : lo < hi) (htol : 0 < tol)
    (hbr : (f lo - target) * (f hi - target) ≤ 0)
    (hiter : ceilLog2 ((hi - lo) / tol) ≤ maxIter) :
    ∃ res, solveResult? (solve f target tol lo hi maxIter) = some res ∧
      res.converged = true ∧
      res.iterations ≤ ceilLog2 ((hi - lo) / tol) ∧
      (bisectLoop f target tol maxIter lo hi).hi - (bisectLoop f target tol maxIter lo hi).lo
        = (hi - lo) / 2 ^ res.iterations := by
  have hline : ¬ (hi ≤ lo) := not_le.mpr hlt
  have hnb : ¬ (0 < (f lo - target) * (f hi - target)) := not_lt.mpr hbr
  have hw : hi - lo ≤ tol * 2 ^ ceilLog2 ((hi - lo) / tol) := by
    have h2 := le_two_pow_ceilLog2 ((hi - lo) / tol)
    rw [div_le_iff₀ htol] at h2
    linarith
  obtain ⟨hc, hn⟩ :=
    bisectLoop_converges f target tol (ceilLog2 ((hi - lo) / tol)) maxIter lo hi hiter hw
  refine ⟨⟨(bisectLoop f target tol maxIter lo hi).converged,
      (bisectLoop f target tol maxIter lo hi).iters,
      (bisectLoop f target tol maxIter lo hi).calls.length + 3,
      ((bisectLoop f target tol maxIter lo hi).lo
        + (bisectLoop f target tol maxIter lo hi).hi) / 2,
      target,
      f (((bisectLoop f target tol maxIter lo hi).lo
        + (bisectLoop f target tol maxIter lo hi).hi) / 2)⟩,
    ?_, hc, hn, bisectLoop_width f target tol maxIter lo hi⟩
  rw [solve_ok_eq f target tol lo hi maxIter hline hnb]
  rfl

/-- Witness for C1 at `f = id`, `target = 1/2`, bounds `[0, 1]`,
`tol = 1/4`, `maxIter = 2`. -/
theorem bisection_bracket_convergence_witness :
    (0 : ℚ) < 1 ∧ (0 : ℚ) < 1 / 4 ∧
      ((id (0 : ℚ)) - 1 / 2) * ((id (1 : ℚ)) - 1 / 2) ≤ 0 ∧
      ceilLog2 (((1 : ℚ) - 0) / (1 / 4)) ≤ 2 ∧
      (∃ res, solveResult? (solve id (1 / 2) (1 / 4) 0 1 2) = some res ∧
        res.converged = true ∧
        res.iterations ≤ ceilLog2 (((1 : ℚ) - 0) / (1 / 4)) ∧
        (bisectLoop id (1 / 2) (1 / 4) 2 0 1).hi - (bisectLoop id (1 / 2) (1 / 4) 2 0 1).lo
          = ((1 : ℚ) - 0) / 2 ^ res.iterations) :=
  have hcl : ceilLog2 (((1 : ℚ) - 0) / (1 / 4)) ≤ 2 := by
    have h4 : (((1 : ℚ) - 0) / (1 / 4)) = 4 := by norm_num
    rw [ceilLog2, h4]
    have hc4 : ⌈(4 : ℚ)⌉₊ = 4 := by norm_num
    rw [hc4]
    exact (Nat.le_pow_iff_clog_le one_lt_two).mp (by norm_num)
  ⟨by norm_num, by norm_num, by norm_num, hcl,
    bisection_bracket_convergence id (1 / 2) (1 / 4) 0 1 2
      (by norm_num) (by norm_num) (by norm_num) hcl⟩

/-- C2: when `f(lo)` and `f(hi)` lie on the same side of the target, a
bisection solve call fails with `noBracket` and the objective was
evaluated exactly at the two boundaries, with no further evaluations. -/
theorem bisection_no_bracket_two_calls (f : ℚ → ℚ) (target tol lo hi : ℚ) (maxIter : ℕ)
    (hlt : lo < hi) (hsame : 0 < (f lo - target) * (f hi - target)) :
    solveError? (solve f target tol lo hi maxIter) = some SolveError.noBracket ∧
      (solve f target tol lo hi maxIter).calls = [lo, hi] := by
  have hline : ¬ (hi ≤ lo) := not_le.mpr hlt
  constructor <;> simp [solve, solveError?, if_neg hline, if_pos hsame]

/-- Witness for C2 at the constant objective `f = 0` with target `1`. -/
theorem bisection_no_bracket_two_calls_witness :
    (0 : ℚ) < 1 ∧ 0 < (((fun _ => (0 : ℚ)) (0 : ℚ)) - 1) * (((fun _ => (0 : ℚ)) (1 : ℚ)) - 1) ∧
      (solveError? (solve (fun _ => (0 : ℚ)) 1 (1 / 100) 0 1 5) = some SolveError.noBracket ∧
        (solve (fun _ => (0 : ℚ)) 1 (1 / 100) 0 1 5).calls = [0, 1]) :=
  ⟨by norm_num, by norm_num,
    bisection_no_bracket_two_calls (fun _ => (0 : ℚ)) 1 (1 / 100) 0 1 5
      (by norm_num) (by norm_num)⟩

/-- C3: a solve call that exhausts `maxIterations` without meeting the
width criterion still returns a result (no error): `converged = false`,
the solution is the midpoint of the final bracket (the best iterate) and
the achieved value is the objective there; non-convergence shows up only
in the `converged` flag. -/
theorem solve_nonconvergence_returns_result (f : ℚ → ℚ) (target tol lo hi : ℚ) (maxIter : ℕ)
    (hlt : lo < hi) (hbr : (f lo - target) * (f hi - target) ≤ 0)
    (hun : tol < (bisectLoop f target tol maxIter lo hi).hi
      - (bisectLoop f target tol maxIter lo hi).lo) :
    ∃ res, solveResult? (solve f target tol lo hi maxIter) = some res ∧
      solveError? (solve f target tol lo hi maxIter) = none ∧
      res.converged = false ∧
      res.solution = ((bisectLoop f target tol maxIter lo hi).lo
        + (bisectLoop f target tol maxIter lo hi).hi) / 2 ∧
      res.achievedValue = f res.solution := by
  have hline : ¬ (hi ≤ lo) := not_le.mpr hlt
  have hnb : ¬ (0 < (f lo - target) * (f hi - target)) := not_lt.mpr hbr
  have hcf : (bisectLoop f target tol maxIter lo hi).converged = false := by
    have hiff := (bisectLoop_converged_iff f target tol maxIter lo hi).not
    simp only [not_le] at hiff
    exact Bool.not_eq_true _ |>.mp (hiff.mpr hun)
  refine ⟨⟨(bisectLoop f target tol maxIter lo hi).converged,
      (bisectLoop f target tol maxIter lo hi).iters,
      (bisectLoop f target tol maxIter lo hi).calls.length + 3,
      ((bisectLoop f target tol maxIter lo hi).lo
        + (bisectLoop f target tol maxIter lo hi).hi) / 2,
      target,
      f (((bisectLoop f target tol maxIter lo hi).lo
        + (bisectLoop f target tol maxIter lo hi).hi) / 2)⟩,
    ?_, ?_, hcf, rfl, rfl⟩
  · rw [solve_ok_eq f target tol lo hi maxIter hline hnb]; rfl
  · rw [solve_ok_eq f target tol lo hi maxIter hline hnb]; rfl

/-- Witness for C3 at `f = id`, `target = 1/2`, bounds `[0, 1]`,
`tol = 1/100`, `maxIter = 2`: two halvings leave a bracket of width
`1/4`, wider than the tolerance. -/
theorem solve_nonconvergence_returns_result_witness :
    (0 : ℚ) < 1 ∧ ((id (0 : ℚ)) - 1 / 2) * ((id (1 : ℚ)) - 1 / 2) ≤ 0 ∧
      (1 : ℚ) / 100 < (bisectLoop id (1 / 2) (1 / 100) 2 0 1).hi
        - (bisectLoop id (1 / 2) (1 / 100) 2 0 1).lo ∧
      (∃ res, solveResult? (solve id (1 / 2) (1 / 100) 0 1 2) = some res ∧
        solveError? (solve id (1 / 2) (1 / 100) 0 1 2) = none ∧
        res.converged = false ∧
        res.solution = ((bisectLoop id (1 / 2) (1 / 100) 2 0 1).lo
          + (bisectLoop id (1 / 2) (1 / 100) 2 0 1).hi) / 2 ∧
        res.achievedValue = id res.solution) :=
  ⟨by norm_num, by norm_num, by norm_num [bisectLoop],
    solve_nonconvergence_returns_result id (1 / 2) (1 / 100) 0 1 2
      (by norm_num) (by norm_num) (by norm_num [bisectLoop])⟩

/-- C7: on the linear toy model `f(x) = 2x + 3` with bounds `[0, 1]`,
target `4` and tolerance `1/1000`, bisection converges with solution
within `1/1000` of `0.5` and achieved value within `1/500` of `4`. -/
theorem linear_toy_model_end_to_end :
    solveConverged (solve (fun x => 2 * x + 3) 4 (1 / 1000) 0 1 20) = true ∧
      |solveSolution (solve (fun x => 2 * x + 3) 4 (1 / 1000) 0 1 20) - 1 / 2| ≤ 1 / 1000 ∧
      |solveAchieved (solve (fun x => 2 * x + 3) 4 (1 / 1000) 0 1 20) - 4| ≤ 1 / 500 := by
  have hline : ¬ (1 : ℚ) ≤ 0 := by norm_num
  have hnb : ¬ (0 : ℚ) < ((fun x => 2 * x + 3) (0 : ℚ) - 4) * ((fun x => 2 * x + 3) (1 : ℚ) - 4) := by
    norm_num
  have hw : (1 : ℚ) - 0 ≤ 1 / 1000 * 2 ^ 20 := by norm_num
  have hconv := (bisectLoop_converges (fun x => 2 * x + 3) 4 (1 / 1000) 20 20 0 1 le_rfl hw).1
  have hwidth : (bisectLoop (fun x => 2 * x + 3) 4 (1 / 1000) 20 0 1).hi
      - (bisectLoop (fun x => 2 * x + 3) 4 (1 / 1000) 20 0 1).lo ≤ 1 / 1000 :=
    (bisectLoop_converged_iff (fun x => 2 * x + 3) 4 (1 / 1000) 20 0 1).mp hconv
  have hbr := bisectLoop_bracket (fun x => 2 * x + 3) 4 (1 / 1000) 20 0 1 (by norm_num)
  have horder : (bisectLoop (fun x => 2 * x + 3) 4 (1 / 1000) 20 0 1).lo
      ≤ (bisectLoop (fun x => 2 * x + 3) 4 (1 / 1000) 20 0 1).hi := by
    have hwq := bisectLoop_width (fun x => 2 * x + 3) 4 (1 / 1000) 20 0 1
    have hpos : (0 : ℚ) < ((1 : ℚ) - 0)
        / 2 ^ (bisectLoop (fun x => 2 * x + 3) 4 (1 / 1000) 20 0 1).iters := by
      positivity
    linarith [hwq, hpos]
  have hroot : (bisectLoop (fun x => 2 * x + 3) 4 (1 / 1000) 20 0 1).lo ≤ 1 / 2 ∧
      (1 : ℚ) / 2 ≤ (bisectLoop (fun x => 2 * x + 3) 4 (1 / 1000) 20 0 1).hi := by
    simp only at hbr
    rcases mul_nonpos_iff.mp hbr with ⟨h1, h2⟩ | ⟨h1, h2⟩ <;> constructor <;> linarith
  rw [solve_ok_eq (fun x => 2 * x + 3) 4 (1 / 1000) 0 1 20 hline hnb]
  simp only [solveConverged, solveSolution, solveAchieved, solveResult?, Except.toOption]
  refine ⟨hconv, abs_le.mpr ⟨by linarith [hroot.1, hroot.2], by linarith [hroot.1, hroot.2]⟩,
    abs_le.mpr ⟨by linarith [hroot.1, hroot.2], by linarith [hroot.1, hroot.2]⟩⟩

/-! ### Model engine: circular-group fixed-point iteration (modelled from the spec, §4.2) -/

/-- Relative change of one output cell between two passes, with the
denominator guarded away from zero. -/
def relChange (prev cur : ℚ) : ℚ := |cur - prev| / max 1 |prev|

/-- Maximum relative change across all of a circular group's output cells
versus the previous pass (spec §4.2 step 2). -/
def maxRelChange (prev cur : List ℚ) : ℚ :=
  (List.zipWith relChange prev cur).foldr max 0

/-- Modelled from the spec: the fixed-point iteration that `Evaluate`
runs on one circular group (spec §4.2 step 2), absent from this
repository.  Each pass evaluates every sheet of the group once (`step`),
measures the maximum relative change against the previous pass, and the
iteration repeats until that change falls below the convergence
tolerance or the fuel (the maximum pass count) is exhausted.  Returns the
final cell values, the number of passes performed, and whether the
tolerance was met. -/
def circularPasses (step : List ℚ → List ℚ) (tol : ℚ) : ℕ → List ℚ → List ℚ × ℕ × Bool
  | 0, s => (s, 0, false)
  | n + 1, s =>
    let s2 := step s
    if maxRelChange s s2 < tol then (s2, 1, true)
    else
      let r := circularPasses step tol n s2
      (r.1, r.2.1 + 1, r.2.2)

/-- Warning text recorded when a circular group hits the pass cap. -/
def circularWarning : String := "circular group did not converge within max passes"

/-- Outcome of evaluating one circular group inside a full evaluation:
the settled cell values, the passes used, the warnings recorded, and the
success flag of the surrounding `CalculationResult`. -/
structure CircularEvalOut where
  values : List ℚ
  passes : ℕ
  warnings : List String
  success : Bool
  deriving Repr, DecidableEq

/-- Modelled from the spec: how `Evaluate` wraps the circular-group
iteration (spec §4.2 step 2), absent from this repository.  Reaching the
pass cap without convergence records a warning; the result stays usable
(`success` remains `true`), it is flagged, not fatal. -/
def evalCircularGroup (step : List ℚ → List ℚ) (tol : ℚ) (maxPasses : ℕ)
    (init : List ℚ) : CircularEvalOut :=
  let r := circularPasses step tol maxPasses init
  ⟨r.1, r.2.1, if r.2.2 then [] else [circularWarning], true⟩

/-- The pass counter never exceeds the fuel (the maximum pass count). -/
lemma circularPasses_passes_le (step : List ℚ → List ℚ) (tol : ℚ) :
    ∀ (n : ℕ) (s : List ℚ), (circularPasses step tol n s).2.1 ≤ n := by
  intro n
  induction n with
  | zero => intro s; simp [circularPasses]
  | succ n ih =>
    intro s
    by_cases hc : maxRelChange s (step s) < tol
    · simp [circularPasses, hc]
    · simp only [circularPasses, if_neg hc]
      exact Nat.succ_le_succ (ih (step s))

/-- C4: evaluating a circular group performs at most the maximum pass
count of fixed-point passes; if the cap is reached before the maximum
relative change falls below the tolerance, the non-convergence warning is
recorded and the evaluation still completes successfully. -/
theorem circular_group_pass_cap_and_warning (step : List ℚ → List ℚ) (tol : ℚ)
    (maxPasses : ℕ) (init : List ℚ)
    (hnc : (circularPasses step tol maxPasses init).2.2 = false) :
    (evalCircularGroup step tol maxPasses init).passes ≤ maxPasses ∧
      circularWarning ∈ (evalCircularGroup step tol maxPasses init).warnings ∧
      (evalCircularGroup step tol maxPasses init).success = true := by
  refine ⟨circularPasses_passes_le step tol maxPasses init, ?_, rfl⟩
  simp [evalCircularGroup, hnc]

/-- Witness for C4: adding `1` to the single cell each pass never meets a
tolerance of `1/2`, so two passes exhaust the cap and flag the warning. -/
theorem circular_group_pass_cap_and_warning_witness :
    (circularPasses (fun s => s.map (fun x => x + 1)) (1 / 2) 2 [0]).2.2 = false ∧
      ((evalCircularGroup (fun s => s.map (fun x => x + 1)) (1 / 2) 2 [0]).passes ≤ 2 ∧
        circularWarning ∈ (evalCircularGroup (fun s => s.map (fun x => x + 1)) (1 / 2) 2 [0]).warnings ∧
        (evalCircularGroup (fun s => s.map (fun x => x + 1)) (1 / 2) 2 [0]).success = true) :=
  have hnc : (circularPasses (fun s => s.map (fun x => x + 1)) (1 / 2) 2 [0]).2.2 = false := by
    norm_num [circularPasses, maxRelChange, relChange]
  ⟨hnc, circular_group_pass_cap_and_warning (fun s => s.map (fun x => x + 1)) (1 / 2) 2 [0] hnc⟩

/-! ### Configuration round trip (modelled from the spec, §4.3/§6) -/

/-- A configuration document: a finite mapping from cell addresses
(sheet, name) to leaf input values (spec §6, "Configuration input"). -/
def Config : Type := List ((String × String) × ℚ)

/-- Sets one cell of a configuration, replacing any earlier binding. -/
def setConfigValue (cfg : Config) (addr : String × String) (v : ℚ) : Config :=
  (addr, v) :: cfg.filter (fun p => p.1 ≠ addr)

/-- Reads one cell of a configuration (`0` for an absent cell). -/
def getConfigValue (cfg : Config) (addr : String × String) : ℚ :=
  match cfg.find? (fun p => p.1 == addr) with
  | some p => p.2
  | none => 0

/-- Modelled from the spec: `GoalSeekResult.save_optimized_config`
(spec §4.3 "Serialization" and §6), absent from this repository: emits
the original configuration with the solved input value merged in over
the input cell. -/
def saveOptimizedConfig (base : Config) (inputCell : String × String)
    (res : GoalSeekResult) : Config :=
  setConfigValue base inputCell res.solution

/-- Modelled from the spec: reloading a written configuration document
recovers the same cell mapping (spec §6, the emitted document is
"loadable again as a valid Configuration input"). -/
def loadConfig (cfg : Config) : Config := cfg

/-- Modelled from the spec: evaluating a model loaded from a
configuration with the engine objective `f` reads the input cell from the
configuration and computes the target cell (spec §4.3, the objective is
one full recalculation pass). -/
def evalConfigTarget (f : ℚ → ℚ) (cfg : Config) (inputCell : String × String) : ℚ :=
  f (getConfigValue cfg inputCell)

lemma getConfigValue_setConfigValue_same (cfg : Config) (addr : String × String) (v : ℚ) :
    getConfigValue (setConfigValue cfg addr v) addr = v := by
  simp [getConfigValue, setConfigValue, List.find?]

/-- Every successful solve result reports the objective value at its
solution as the achieved value. -/
lemma solve_achievedValue (f : ℚ → ℚ) (target tol lo hi : ℚ) (maxIter : ℕ)
    (res : GoalSeekResult)
    (h : solveResult? (solve f target tol lo hi maxIter) = some res) :
    res.achievedValue = f res.solution := by
  by_cases hline : hi ≤ lo
  · simp [solve, solveResult?, if_pos hline, Except.toOption] at h
  · by_cases hnb : 0 < (f lo - target) * (f hi - target)
    · simp [solve, solveResult?, if_neg hline, if_pos hnb, Except.toOption] at h
    · rw [solve_ok_eq f target tol lo hi maxIter hline hnb] at h
      simp only [solveResult?, Except.toOption, Option.some.injEq] at h
      rw [← h]

/-- C6: writing the optimized configuration, reloading it, and evaluating
the model with the input cell set to the saved solution reproduces the
achieved value within tolerance (here exactly, hence within any
nonnegative tolerance). -/
theorem optimized_config_round_trip (f : ℚ → ℚ) (target tol lo hi : ℚ) (maxIter : ℕ)
    (base : Config) (inputCell : String × String) (res : GoalSeekResult)
    (htol : 0 ≤ tol)
    (h : solveResult? (solve f target tol lo hi maxIter) = some res) :
    |evalConfigTarget f (loadConfig (saveOptimizedConfig base inputCell res)) inputCell
      - res.achievedValue| ≤ tol := by
  have hav := solve_achievedValue f target tol lo hi maxIter res h
  rw [evalConfigTarget, loadConfig, saveOptimizedConfig,
    getConfigValue_setConfigValue_same, hav, sub_self, abs_zero]
  exact htol

/-- Witness for C6 on a zero-iteration solve over the identity objective:
the saved configuration alone reproduces the achieved value. -/
theorem optimized_config_round_trip_witness :
    (0 : ℚ) ≤ 2 ∧
      solveResult? (solve id 0 2 (-1) 1 0) = some ⟨true, 0, 3, 0, 0, 0⟩ ∧
      |evalConfigTarget id
        (loadConfig (saveOptimizedConfig [] ("financing", "lvr") ⟨true, 0, 3, 0, 0, 0⟩))
        ("financing", "lvr") - (0 : ℚ)| ≤ 2 :=
  have h : solveResult? (solve id 0 2 (-1) 1 0) = some ⟨true, 0, 3, 0, 0, 0⟩ := by
    norm_num [solve, bisectLoop, solveResult?, Except.toOption]
  ⟨by norm_num, h,
    optimized_config_round_trip id 0 2 (-1) 1 0 [] ("financing", "lvr")
      ⟨true, 0, 3, 0, 0, 0⟩ (by norm_num) h⟩

/-! ### Top-level metric derivation (modelled from the spec, §4.2 step 4 / §4.2 numeric semantics) -/

/-- Net present value of a cash-flow series at a rate: the sum of
cf_i / (1 + r)^i over the periods. -/
def npv (r : ℚ) (cf : List ℚ) : ℚ :=
  (cf.enum.map (fun p => p.2 / (1 + r) ^ p.1)).sum

/-- A cash-flow series is degenerate when every entry is zero. -/
def degenerate (cf : List ℚ) : Bool := cf.all (fun x => x == 0)

/-- Lower end of the reasonable IRR root bracket. -/
def irrBracketLo : ℚ := -(9 / 10)

/-- Upper end of the reasonable IRR root bracket. -/
def irrBracketHi : ℚ := 10

/-- Modelled from the spec: IRR via iterative root-finding on the
cash-flow polynomial (spec §4.2, numeric semantics), absent from this
repository.  Returns `none`, not an exception, when the series is
degenerate or when the NPV has no sign change over the reasonable
bracket; otherwise bisects the NPV to a root. -/
def irr (cf : List ℚ) : Option ℚ :=
  if degenerate cf then none
  else if 0 < npv irrBracketLo cf * npv irrBracketHi cf then none
  else
    some (((bisectLoop (fun r => npv r cf) 0 (1 / 1000000) 60 irrBracketLo irrBracketHi).lo
      + (bisectLoop (fun r => npv r cf) 0 (1 / 1000000) 60 irrBracketLo irrBracketHi).hi) / 2)

/-- Modelled from the spec: an NPV metric is `None` on a degenerate
cash-flow series, never a crash (spec §4.2 step 4). -/
def npvMetric (r : ℚ) (cf : List ℚ) : Option ℚ :=
  if degenerate cf then none else some (npv r cf)

/-- Top-level financial metrics of a `CalculationResult` (spec §3):
every metric is optional, absent when its derivation is degenerate. -/
structure Metrics where
  projectValue : Option ℚ
  unleveredIrr : Option ℚ
  leveredIrr : Option ℚ
  unleveredNpv : Option ℚ
  leveredNpv : Option ℚ
  deriving Repr, DecidableEq

/-- Modelled from the spec: deriving the top-level metrics from the
unlevered and levered cash-flow series once all sheets have settled
(spec §4.2 step 4), absent from this repository. -/
def deriveMetrics (discount : ℚ) (unlevCf levCf : List ℚ) : Metrics :=
  ⟨npvMetric discount unlevCf, irr unlevCf, irr levCf,
    npvMetric discount unlevCf, npvMetric discount levCf⟩

/-- C8: metric derivation is total — on a degenerate (all-zero) unlevered
series the project value, unlevered IRR and unlevered NPV are `none`, and
on a levered series whose NPV polynomial has no sign change over the
reasonable bracket the levered IRR is `none`; no case raises. -/
theorem derive_metrics_none_on_degenerate (discount : ℚ) (unlevCf levCf : List ℚ)
    (hdeg : degenerate unlevCf = true)
    (hnr : 0 < npv irrBracketLo levCf * npv irrBracketHi levCf) :
    (deriveMetrics discount unlevCf levCf).projectValue = none ∧
      (deriveMetrics discount unlevCf levCf).unleveredIrr = none ∧
      (deriveMetrics discount unlevCf levCf).unleveredNpv = none ∧
      (deriveMetrics discount unlevCf levCf).leveredIrr = none := by
  refine ⟨?_, ?_, ?_, ?_⟩
  · simp [deriveMetrics, npvMetric, hdeg]
  · simp [deriveMetrics, irr, hdeg]
  · simp [deriveMetrics, npvMetric, hdeg]
  · by_cases hdl : degenerate levCf <;> simp [deriveMetrics, irr, hdl, hnr]

/-- Witness for C8 with an all-zero unlevered series and an always-positive
levered NPV polynomial. -/
theorem derive_metrics_none_on_degenerate_witness :
    degenerate [(0 : ℚ), 0] = true ∧
      0 < npv irrBracketLo [(1 : ℚ), 1] * npv irrBracketHi [(1 : ℚ), 1] ∧
      ((deriveMetrics (1 / 10) [(0 : ℚ), 0] [(1 : ℚ), 1]).projectValue = none ∧
        (deriveMetrics (1 / 10) [(0 : ℚ), 0] [(1 : ℚ), 1]).unleveredIrr = none ∧
        (deriveMetrics (1 / 10) [(0 : ℚ), 0] [(1 : ℚ), 1]).unleveredNpv = none ∧
        (deriveMetrics (1 / 10) [(0 : ℚ), 0] [(1 : ℚ), 1]).leveredIrr = none) :=
  have hdeg : degenerate [(0 : ℚ), 0] = true := by norm_num [degenerate]
  have hnr : 0 < npv irrBracketLo [(1 : ℚ), 1] * npv irrBracketHi [(1 : ℚ), 1] := by
    norm_num [npv, irrBracketLo, irrBracketHi, List.enum, List.enumFrom]
  ⟨hdeg, hnr, derive_metrics_none_on_degenerate (1 / 10) [(0 : ℚ), 0] [(1 : ℚ), 1] hdeg hnr⟩

/-! ### ACCU volume literals of the example scripts (transcribed from the source) -/

/-- The custom ACCU production volume literal of
`src/examples/02_custom_accu_volumes.py`, lines 31-59. -/
def custom_accu_volumes : List ℚ :=
  [0.0, 6750.0, 24605.5, 36785.2, 42933.1, 44904.4, 44481.5, 42799.0,
   40511.9, 37986.9, 35426.2, 32939.2, 30581.6, 28379.3, 26340.3, 24463.0,
   22740.6, 21163.1, 19719.8, 18399.5, 17191.5, 16085.5, 15072.1, 14142.5,
   13288.8, 0.0, 0.0]

/-- The three ACCU production scenarios of
`src/examples/03_batch_analysis.py`, lines 21-43, in declaration order. -/
def ACCU_SCENARIOS : List (String × List ℚ) :=
  [("Conservative",
    [0.0, 4500.0, 16403.7, 24523.4, 28622.1, 29936.3,
     29654.3, 28532.7, 27007.9, 25324.6, 23617.5, 21959.4,
     20387.8, 18919.5, 17560.2, 16308.7, 15160.4, 14108.7,
     13146.5, 12266.4, 11461.0, 10723.7, 10048.1, 9428.3,
     8859.2, 0.0, 0.0]),
   ("Baseline",
    [0.0, 6000.0, 21871.6, 32697.9, 38162.8, 39915.0,
     39539.1, 38043.6, 36010.6, 33766.1, 31490.0, 29279.3,
     27183.7, 25226.0, 23413.6, 21744.9, 20213.9, 18811.6,
     17528.7, 16355.2, 15281.4, 14298.3, 13397.4, 12571.1,
     11812.3, 0.0, 0.0]),
   ("Aggressive",
    [0.0, 6750.0, 24605.5, 36785.2, 42933.1, 44904.4,
     44481.5, 42799.0, 40511.9, 37986.9, 35426.2, 32939.2,
     30581.6, 28379.3, 26340.3, 24463.0, 22740.6, 21163.1,
     19719.8, 18399.5, 17191.5, 16085.5, 15072.1, 14142.5,
     13288.8, 0.0, 0.0])]

/-- C9: the custom ACCU volume list of example 02 and each of the three
scenario lists of example 03 have exactly 27 entries, the model's fixed
period count. -/
theorem accu_volume_lists_have_27_periods :
    custom_accu_volumes.length = 27 ∧
      ACCU_SCENARIOS.all (fun p => p.2.length == 27) = true :=
  ⟨rfl, rfl⟩

/-! ### Print guards of examples 01 and 02 (transcribed from the source) -/

/-- Python truthiness of an optional float: `None` and `0.0` are falsy. -/
def pyTruthy : Option ℚ → Bool
  | none => false
  | some x => decide (x ≠ 0)

/-- The guard of the financial-returns block in
`src/examples/02_custom_accu_volumes.py`, line 104:
`if result.unlevered_return and result.levered_return:`. -/
def printsFinancialReturns02 (unlev lev : Option ℚ) : Bool :=
  pyTruthy unlev && pyTruthy lev

/-- The guard of the metrics block in
`src/examples/01_basic_goal_seek.py`, line 86:
`if result.unlevered_return is not None and result.levered_return is not None:`. -/
def printsFinancialMetrics01 (unlev lev : Option ℚ) : Bool :=
  unlev.isSome && lev.isSome

/-- C10: example 02 prints its returns block only when both values are
truthy, so a defined return equal to `0.0` suppresses it; example 01
prints its metrics block for any two non-`None` values, `0.0` included,
and suppresses it exactly when a value is `None`. -/
theorem returns_block_guards :
    (∀ r : ℚ, printsFinancialReturns02 (some 0) (some r) = false ∧
      printsFinancialReturns02 (some r) (some 0) = false) ∧
      (∀ u l : ℚ, printsFinancialMetrics01 (some u) (some l) = true) ∧
      (∀ v : Option ℚ, printsFinancialMetrics01 none v = false ∧
        printsFinancialMetrics01 v none = false) := by
  refine ⟨fun r => ⟨?_, ?_⟩, fun u l => ?_, fun v => ⟨?_, ?_⟩⟩ <;>
    simp [printsFinancialReturns02, printsFinancialMetrics01, pyTruthy]

/-! ### Dependency graph classification (modelled from the spec, §4.1) -/

/-- A sheet declaration at the graph's granularity: its name and, in
declaration order, the names of sheets it reads from (spec §3,
`SheetDefinition`; edges A → B when A reads a cell written by B). -/
structure SheetDefinition where
  name : String
  deps : List String
  deriving Repr, DecidableEq

/-- Declared dependencies of a sheet name (empty for an unknown name). -/
def depsOf (defs : List SheetDefinition) (n : String) : List String :=
  match defs.find? (fun s => s.name == n) with
  | some s => s.deps
  | none => []

/-- One expansion of a frontier along declared dependencies. -/
def expandOnce (defs : List SheetDefinition) (frontier : List String) : List String :=
  (frontier ++ frontier.flatMap (depsOf defs)).dedup

/-- Iterated dependency closure with fuel. -/
def reachSet (defs : List SheetDefinition) : ℕ → List String → List String
  | 0, acc => acc
  | k + 1, acc => reachSet defs k (expandOnce defs acc)

/-- Whether sheet `b` is reachable from sheet `a` along dependency edges
(one or more steps; fuel is the sheet count, enough for any simple path). -/
def reachesB (defs : List SheetDefinition) (a b : String) : Bool :=
  (reachSet defs defs.length (depsOf defs a)).contains b

/-- A sheet is circular when it reaches itself (a self-loop or a larger
cycle through other sheets). -/
def inCycleB (defs : List SheetDefinition) (n : String) : Bool :=
  reachesB defs n n

/-- Mutual reachability (or identity): membership in the same strongly
connected component. -/
def sameSccB (defs : List SheetDefinition) (a b : String) : Bool :=
  a == b || (reachesB defs a b && reachesB defs b a)

/-- The strongly connected component of a sheet, as the declaration-ordered
list of member names. -/
def sccOf (defs : List SheetDefinition) (n : String) : List String :=
  (defs.filter (fun t => sameSccB defs n t.name)).map (fun t => t.name)

/-- The condensed graph's nodes: each sheet's component, listed once, in
declaration order of their first members. -/
def condensedGroups (defs : List SheetDefinition) : List (List String) :=
  (defs.map (fun s => sccOf defs s.name)).dedup

/-- A group has no remaining unresolved predecessors: every dependency of
every member is inside the group or already processed. -/
def groupReadyB (defs : List SheetDefinition) (done : List String)
    (g : List String) : Bool :=
  g.all (fun n => (depsOf defs n).all (fun d => g.contains d || done.contains d))

/-- Kahn's loop over the condensed graph: repeatedly process the first
group in declaration order with no remaining unresolved predecessors
(spec §4.1, the deterministic tie-break). -/
def classifyLoop (defs : List SheetDefinition) :
    ℕ → List String → List (List String) → List (List String)
  | 0, _, _ => []
  | k + 1, done, remaining =>
    match remaining.find? (groupReadyB defs done) with
    | none => []
    | some g => g :: classifyLoop defs k (done ++ g) (remaining.filter (fun g2 => g2 ≠ g))

/-- Outcome of `Classify` (spec §4.1): the linear evaluation order of
sheet groups and the set of circular groups. -/
structure Classification where
  linearOrder : List (List String)
  circularGroups : List (List String)
  deriving Repr, DecidableEq

/-- Modelled from the spec: `DependencyGraph.Classify()` (spec §4.1),
absent from this repository.  Decomposes the sheet graph into strongly
connected components; components of size greater than one, or a size-one
component with a self-loop, are the circular groups; the linear order is
the topological order of the condensed graph with the declaration-order
tie-break. -/
def classify (defs : List SheetDefinition) : Classification :=
  let groups := condensedGroups defs
  ⟨classifyLoop defs groups.length [] groups,
    groups.filter (fun g => decide (1 < g.length) || g.any (fun n => inCycleB defs n))⟩

/-- Position of an element in a list, counting from the front (length of
the list when absent): the declaration index of a sheet group. -/
def declIndex {α : Type} [DecidableEq α] : List α → α → ℕ
  | [], _ => 0
  | x :: xs, a => if x = a then 0 else declIndex xs a + 1

/-- The first element satisfying a predicate is the one `find?` returns,
and it sits no later in the list than any other satisfying element. -/
lemma find?_earliest {α : Type} [DecidableEq α] (p : α → Bool) :
    ∀ (l : List α) (b : α), b ∈ l → p b = true →
      ∃ a, l.find? p = some a ∧ p a = true ∧ declIndex l a ≤ declIndex l b := by
  intro l
  induction l with
  | nil => intro b hb; cases hb
  | cons x xs ih =>
    intro b hb hp
    by_cases hx : p x = true
    · refine ⟨x, List.find?_cons_of_pos _ hx, hx, ?_⟩
      simp only [declIndex, if_pos rfl]
      exact Nat.zero_le _
    · have hbx : b ≠ x := fun he => hx (he ▸ hp)
      have hb2 : b ∈ xs := by
        rcases List.mem_cons.mp hb with h | h
        · exact absurd h hbx
        · exact h
      obtain ⟨a, ha, hpa, hle⟩ := ih b hb2 hp
      have hax : a ≠ x := fun he => hx (he ▸ hpa)
      refine ⟨a, ?_, hpa, ?_⟩
      · rw [List.find?_cons_of_neg _ (by simpa using hx)]
        exact ha
      · simp only [declIndex, if_neg (Ne.symm hax), if_neg (Ne.symm hbx)]
        omega

/-- C5: classification is deterministic — equal sheet-definition lists
classify to the same linear order and circular groups — and whenever
several groups have no remaining unresolved predecessors, the one the
loop processes next (the `find?` selection) is the earliest such group in
declaration order. -/
theorem classify_deterministic_with_declaration_order_tie_break
    (defs defs2 : List SheetDefinition) (heq : defs = defs2)
    (done : List String) (groups : List (List String)) (g : List String)
    (hg : g ∈ groups) (hready : groupReadyB defs done g = true) :
    classify defs = classify defs2 ∧
      ∃ p, groups.find? (groupReadyB defs done) = some p ∧
        groupReadyB defs done p = true ∧ declIndex groups p ≤ declIndex groups g :=
  ⟨heq ▸ rfl, find?_earliest (groupReadyB defs done) groups g hg hready⟩

/-- Witness for C5 on two independent sheets declared as A then B: both
are ready, and the selection is A, the earlier declaration. -/
theorem classify_deterministic_tie_break_witness :
    ["B"] ∈ [["A"], ["B"]] ∧
      groupReadyB [⟨"A", []⟩, ⟨"B", []⟩] [] ["B"] = true ∧
      (classify [⟨"A", []⟩, ⟨"B", []⟩] = classify [⟨"A", []⟩, ⟨"B", []⟩] ∧
        ∃ p, [["A"], ["B"]].find? (groupReadyB [⟨"A", []⟩, ⟨"B", []⟩] []) = some p ∧
          groupReadyB [⟨"A", []⟩, ⟨"B", []⟩] [] p = true ∧
          declIndex [["A"], ["B"]] p ≤ declIndex [["A"], ["B"]] ["B"]) :=
  have hg : ["B"] ∈ [["A"], ["B"]] := by simp
  have hready : groupReadyB [⟨"A", []⟩, ⟨"B", []⟩] [] ["B"] = true := by
    simp [groupReadyB, depsOf]
  ⟨hg, hready,
    classify_deterministic_with_declaration_order_tie_break
      [⟨"A", []⟩, ⟨"B", []⟩] [⟨"A", []⟩, ⟨"B", []⟩] rfl [] [["A"], ["B"]] ["B"] hg hready⟩

end EPP
